import Mathlib

/-!
Verification development for the Smart Travel Planner client (`src/script.js`).

The script is a single-page application; its algorithmic core is:

* `handlePlan` (lines 118–195): filters Overpass elements to those with a
  `tags.name`, computes a haversine distance to the query origin for each,
  sorts ascending by distance (JavaScript `Array.prototype.sort` is stable),
  keeps the first `min(count, days * 5)` elements and assigns the i-th kept
  element day index `Math.floor(i / Math.ceil(maxPOIs / days))`.
* `saveTrip` / `loadTrip` (lines 426–451): persist the trip to localStorage
  as a JSON string and restore it, swallowing parse failures.
* the Sortable `onEnd` handlers in `createItineraryUI` (lines 252–293):
  day reordering remaps every POI's `day` through a permutation; a POI drag
  sets the dragged POI's `day` to the target list's index.
* `toggleVisited` (lines 402–423) and `updateMarkerColors` /
  `createMarkers` (lines 299–343): visited flag toggling and the map-marker
  dictionary keyed by POI id.

Modelling conventions:

* JavaScript numbers used as counts/indices are modelled as `Nat`
  (the script guards `days >= 1` and indices are array indices), and
  coordinates as `Int`; none of the verified claims depend on fractional
  coordinate values.
* The floating-point haversine (`haversine`, lines 454–464, sin/cos/atan2)
  has no exact shallow embedding; every theorem about the builder is
  therefore stated for an arbitrary integer-valued distance function
  `hav`, a parameter standing for `haversine` composed with the rounding
  of the float ordering.  The comparator `(a, b) => a.distance - b.distance`
  induces exactly the ordering `hav … ≤ hav …` on those values.
* `Array.prototype.sort` with a consistent comparator is a stable sort
  (ECMAScript 2019 and later); it is modelled by `List.mergeSort`,
  which is stable.
* localStorage is a string-keyed map.  Stored strings are modelled by
  `StoredStr`: either `.bad` (a string on which `JSON.parse` throws) or
  `.good j` with `j : JVal` the parse result (`JSON.parse ∘ JSON.stringify`
  is the identity on the JSON values the script stores).
* JavaScript member access `data.f` is modelled by `jsGet`: it throws on
  `null` (modelled by `Except`), yields `undefined` (modelled by `none`)
  on primitives, arrays and absent object fields.
-/

namespace TravelApp

/-- A point of interest as built by `handlePlan` (script.js lines 161–174):
`id` is `el.id.toString()`, `tags` the Overpass tag map, `day` the assigned
day index, `visited`/`descriptionLoaded` start `false`, `description` `''`. -/
structure POI where
  id : String
  name : String
  lat : Int
  lon : Int
  tags : List (String × String)
  day : Nat
  visited : Bool
  descriptionLoaded : Bool
  description : String
deriving DecidableEq, Repr

/-- An Overpass element as consumed by `handlePlan`: a numeric `id`,
coordinates, and an optional tag map (`el.tags` may be absent). -/
structure OverElem where
  id : Int
  lat : Int
  lon : Int
  tags : Option (List (String × String))
deriving DecidableEq, Repr

/-- First value bound to `key` in an association list (JavaScript object
field lookup; the script never builds objects with duplicate keys). -/
def alookup {α : Type} : List (String × α) → String → Option α
  | [], _ => none
  | (k, v) :: ms, key => if k = key then some v else alookup ms key

/-- The name of an element: `el.tags.name`, or `""` when absent. -/
def elName (el : OverElem) : String :=
  match el.tags with
  | none => ""
  | some ts => (alookup ts "name").getD ""

/-- The filter `el => el.tags && el.tags.name` (script.js line 152):
the tag object exists and its `name` is a truthy (non-empty) string. -/
def keepElem (el : OverElem) : Bool :=
  match el.tags with
  | none => false
  | some ts =>
    match alookup ts "name" with
    | none => false
    | some s => s ≠ ""

/-- The POI-building pipeline of `handlePlan` (script.js lines 152–174),
parameterised by the distance function `hav` (see module docstring):
filter elements with a name, sort ascending by distance from the origin
`(lat, lon)` (stable), keep the first `min(length, days*5)`, and map the
i-th kept element to a POI with `day = i / ⌈maxPOIs / days⌉`
(`Math.floor(index / Math.ceil(maxPOIs / days))`). -/
def buildPlaces (hav : Int → Int → Int → Int → Int) (lat lon : Int)
    (days : Nat) (elements : List OverElem) : List POI :=
  let els := elements.filter keepElem
  let sorted := els.mergeSort
    (fun a b => decide (hav lat lon a.lat a.lon ≤ hav lat lon b.lat b.lon))
  let maxPOIs := Nat.min sorted.length (days * 5)
  let chosen := sorted.take maxPOIs
  let bucket := (maxPOIs + days - 1) / days
  chosen.mapIdx (fun i el =>
    { id := toString el.id
      name := elName el
      lat := el.lat
      lon := el.lon
      tags := el.tags.getD []
      day := i / bucket
      visited := false
      descriptionLoaded := false
      description := "" })

/-! ## Markers, toggling, moving, day reordering

The script keeps a dictionary `markers` from POI id to a Leaflet marker;
the only datum of a marker the claims observe is its icon colour, so a
marker is modelled by its colour string and the dictionary by an
association list (JavaScript object: keys unique, insertion order). -/

/-- Remove the entry for `key` (JavaScript `delete markers[id]`,
script.js line 332). -/
def aerase {α : Type} : List (String × α) → String → List (String × α)
  | [], _ => []
  | (k1, v1) :: ms, key =>
    if k1 = key then aerase ms key else (k1, v1) :: aerase ms key

/-- Overwrite the value at `key` where present (the script only calls
`marker.setIcon` on a marker it just looked up, script.js line 339);
an absent key is left absent. -/
def aset {α : Type} : List (String × α) → String → α → List (String × α)
  | [], _, _ => []
  | (k1, v1) :: ms, key, v =>
    if k1 = key then (key, v) :: aset ms key v
    else (k1, v1) :: aset ms key v

/-- The eight-colour day palette (script.js lines 305 and 325). -/
def dayColors : List String :=
  ["#e74c3c", "#3498db", "#27ae60", "#f39c12", "#9b59b6", "#1abc9c",
   "#e67e22", "#8e44ad"]

/-- Marker colour for a day: `dayColors[p.day % dayColors.length]`
(script.js lines 308 and 334). -/
def colorOf (day : Nat) : String :=
  dayColors.getD (day % dayColors.length) ""

/-- The body of the `updateMarkerColors` loop for one place (script.js
lines 326–342): if a marker exists for its id, delete it when the place
is visited and recolor it otherwise; a place with no marker is skipped. -/
def umcStep (ms : List (String × String)) (p : POI) :
    List (String × String) :=
  match alookup ms p.id with
  | none => ms
  | some _ =>
    if p.visited then aerase ms p.id else aset ms p.id (colorOf p.day)

/-- Model of `updateMarkerColors` (script.js lines 324–343): run `umcStep`
over every place.  No marker is ever created. -/
def updateMarkerColors (places : List POI)
    (markers : List (String × String)) : List (String × String) :=
  places.foldl umcStep markers

/-- Model of `createMarkers` (script.js lines 299–321): clear the dictionary, then
add one marker per non-visited place, coloured by its day. -/
def createMarkers (places : List POI) : List (String × String) :=
  places.foldl
    (fun ms p => if p.visited then ms else ms ++ [(p.id, colorOf p.day)])
    []

/-- The in-memory state the mutation handlers touch: the `places` array
and the `markers` dictionary (script.js lines 36–37). -/
structure AppState where
  places : List POI
  markers : List (String × String)
deriving DecidableEq, Repr

/-- Flip `visited` on the first place whose id matches (the effect of
`p.visited = !p.visited` after `places.find`, script.js lines 403–405). -/
def togglePlaces (id : String) : List POI → List POI
  | [] => []
  | p :: ps =>
    if p.id = id then { p with visited := !p.visited } :: ps
    else p :: togglePlaces id ps

/-- Model of `toggleVisited` (script.js lines 402–423): find the place by id; if
absent return unchanged; otherwise flip its `visited` flag and run
`updateMarkerColors` on the mutated places (the DOM class updates and the
`saveTrip` call do not touch this state). -/
def toggleVisited (id : String) (st : AppState) : AppState :=
  match st.places.find? (fun p => p.id = id) with
  | none => st
  | some _ =>
    let ps := togglePlaces id st.places
    { places := ps, markers := updateMarkerColors ps st.markers }

/-- Set `day` on the first place whose id matches (`poi.day =
newDayIndex` after `places.find`, script.js lines 287–289). -/
def movePlaces (id : String) (newDay : Nat) : List POI → List POI
  | [] => []
  | p :: ps =>
    if p.id = id then { p with day := newDay } :: ps
    else p :: movePlaces id newDay ps

/-- The POI-list Sortable `onEnd` handler (script.js lines 283–293): find
the dragged POI by id; if absent return (before `updateMarkerColors` and
`saveTrip`); otherwise set its `day` to the target list's index and
refresh marker colours. -/
def moveHandler (id : String) (newDay : Nat) (st : AppState) : AppState :=
  match st.places.find? (fun p => p.id = id) with
  | none => st
  | some _ =>
    let ps := movePlaces id newDay st.places
    { places := ps, markers := updateMarkerColors ps st.markers }

/-- The day-container Sortable `onEnd` handler's effect on `places`
(script.js lines 266–269): one pass over all places setting
`p.day = mapping[p.day]`, where `mapping` sends each old day index to the
container's new position. -/
def reorderDays (mapping : Nat → Nat) (places : List POI) : List POI :=
  places.map (fun p => { p with day := mapping p.day })

/-! ## Persistence: localStorage, JSON values, `saveTrip` / `loadTrip` -/

/-- A JSON value, the result of a successful `JSON.parse`. -/
inductive JVal where
  | jnull : JVal
  | jbool : Bool → JVal
  | jnum : Int → JVal
  | jstr : String → JVal
  | jarr : List JVal → JVal
  | jobj : List (String × JVal) → JVal
deriving Repr

/-- A string held in localStorage, classified by what `JSON.parse` does to
it: `.bad` if parsing throws, `.good j` if it parses to `j`. -/
inductive StoredStr where
  | bad : StoredStr
  | good : JVal → StoredStr
deriving Repr

/-- JavaScript member access `v.f`: throws a TypeError on `null`
(modelled by `Except.error`), looks the field up on an object, and yields
`undefined` (`none`) on every other value. -/
def jsGet (v : JVal) (f : String) : Except Unit (Option JVal) :=
  match v with
  | .jnull => .error ()
  | .jobj fields => .ok (alookup fields f)
  | _ => .ok none

/-- JavaScript truthiness of a possibly-`undefined` value: `undefined`,
`null`, `false`, `0` and `""` are falsy, everything else truthy. -/
def truthy : Option JVal → Bool
  | none => false
  | some .jnull => false
  | some (.jbool b) => b
  | some (.jnum n) => n ≠ 0
  | some (.jstr s) => s ≠ ""
  | some (.jarr _) => true
  | some (.jobj _) => true

/-- A planned trip as held in memory after `handlePlan`: the `places`
array plus `currentDest`, `currentDays`, `currentMode`
(script.js lines 37–42, 176–179). -/
structure Trip where
  places : List POI
  dest : String
  days : Nat
  mode : String
deriving DecidableEq, Repr

/-- JSON encoding of one POI, field for field as `JSON.stringify`
serialises the objects built at script.js lines 163–173. -/
def encodePOI (p : POI) : JVal :=
  .jobj [("id", .jstr p.id), ("name", .jstr p.name),
         ("lat", .jnum p.lat), ("lon", .jnum p.lon),
         ("tags", .jobj (p.tags.map (fun kv => (kv.1, .jstr kv.2)))),
         ("day", .jnum p.day), ("visited", .jbool p.visited),
         ("descriptionLoaded", .jbool p.descriptionLoaded),
         ("description", .jstr p.description)]

/-- The payload `{ places, dest, days, mode }` written by `saveTrip`
(script.js line 428). -/
def encodeTrip (t : Trip) : JVal :=
  .jobj [("places", .jarr (t.places.map encodePOI)),
         ("dest", .jstr t.dest), ("days", .jnum t.days),
         ("mode", .jstr t.mode)]

/-- Model of `saveTrip` (script.js lines 426–430): a no-op when `currentTripKey`
is null, otherwise store the JSON payload under the key. -/
def saveTrip (key : Option String) (t : Trip)
    (storage : List (String × StoredStr)) : List (String × StoredStr) :=
  match key with
  | none => storage
  | some k => (k, .good (encodeTrip t)) :: aerase storage k

/-- The four trip variables as raw JavaScript values, as they stand after
`loadTrip`'s assignments (`none` models `undefined`). -/
structure RawTrip where
  places : Option JVal
  dest : Option JVal
  days : Option JVal
  mode : Option JVal
deriving Repr

/-- Model of `loadTrip` (script.js lines 433–451): return unchanged when the key is
null or absent; when `JSON.parse` throws the `catch` leaves the variables
unchanged; when `data.places` itself throws (`data` is `null`) nothing has
been assigned yet; otherwise assign
`places = data.places || []`, `dest = data.dest`, `days = data.days`,
`mode = data.mode || 'driving'`.  The subsequent DOM writes and
`createItineraryUI` / `createMarkers` calls inside the same `try` do not
touch these four variables. -/
def loadTrip (key : Option String) (storage : List (String × StoredStr))
    (st : RawTrip) : RawTrip :=
  match key with
  | none => st
  | some k =>
    match alookup storage k with
    | none => st
    | some .bad => st
    | some (.good data) =>
      match jsGet data "places" with
      | .error _ => st
      | .ok pv =>
        let getF : String → Option JVal := fun f =>
          match jsGet data f with
          | .error _ => none
          | .ok v => v
        let mv := getF "mode"
        { places := some (if truthy pv then pv.getD .jnull else .jarr [])
          dest := getF "dest"
          days := getF "days"
          mode := some (if truthy mv then mv.getD .jnull
                        else .jstr "driving") }

/-- Decode a string-valued tag entry back from JSON. -/
def decodeTag (kv : String × JVal) : Option (String × String) :=
  match kv.2 with
  | .jstr s => some (kv.1, s)
  | _ => none

/-- Decode a JSON value back into a POI: the value-equality observer used
to state the save/load round trip.  Inverse of `encodePOI` on its image. -/
def decodePOI (v : JVal) : Option POI :=
  match v with
  | .jobj [("id", .jstr id), ("name", .jstr name),
           ("lat", .jnum lat), ("lon", .jnum lon),
           ("tags", .jobj tags), ("day", .jnum day),
           ("visited", .jbool visited),
           ("descriptionLoaded", .jbool dl),
           ("description", .jstr descr)] =>
    match day.toNat', tags.mapM decodeTag with
    | some d, some ts =>
      some { id := id, name := name, lat := lat, lon := lon, tags := ts,
             day := d, visited := visited, descriptionLoaded := dl,
             description := descr }
    | _, _ => none
  | _ => none

/-- Decode the raw trip variables back into a typed `Trip`: the
value-equality observer for the round-trip claim. -/
def decodeRawTrip (r : RawTrip) : Option Trip :=
  match r.places, r.dest, r.days, r.mode with
  | some (.jarr ps), some (.jstr dest), some (.jnum days),
      some (.jstr mode) =>
    match ps.mapM decodePOI, days.toNat' with
    | some places, some d =>
      some { places := places, dest := dest, days := d, mode := mode }
    | _, _ => none
  | _, _, _, _ => none

/-! ## Helper lemmas -/

theorem alookup_aerase {α : Type} (ms : List (String × α)) (k key : String) :
    alookup (aerase ms k) key = if key = k then none else alookup ms key := by
  induction ms with
  | nil => simp [aerase, alookup]
  | cons kv ms ih =>
    obtain ⟨k1, v1⟩ := kv
    by_cases h1 : k1 = k
    · rw [show aerase ((k1, v1) :: ms) k = aerase ms k by simp [aerase, h1],
        ih]
      by_cases h2 : key = k
      · simp [h2]
      · have h3 : ¬k1 = key := by rw [h1]; exact fun h => h2 h.symm
        simp [alookup, h2, h3]
    · rw [show aerase ((k1, v1) :: ms) k = (k1, v1) :: aerase ms k by
        simp [aerase, h1]]
      by_cases h2 : k1 = key
      · have h3 : ¬key = k := fun h => h1 (h2.trans h)
        simp [alookup, h2, h3]
      · simp [alookup, h2, ih]

theorem alookup_aset {α : Type} (ms : List (String × α)) (k key : String)
    (v : α) :
    alookup (aset ms k v) key =
      if key = k then (alookup ms k).map (fun _ => v)
      else alookup ms key := by
  induction ms with
  | nil => simp [aset, alookup]
  | cons kv ms ih =>
    obtain ⟨k1, v1⟩ := kv
    by_cases h1 : k1 = k
    · rw [show aset ((k1, v1) :: ms) k v = (k, v) :: aset ms k v by
        simp [aset, h1]]
      by_cases h2 : key = k
      · simp [alookup, h1, h2]
      · have h3 : ¬k = key := fun h => h2 h.symm
        have h4 : ¬k1 = key := h1 ▸ h3
        simp [alookup, h2, h3, h4, ih]
    · rw [show aset ((k1, v1) :: ms) k v = (k1, v1) :: aset ms k v by
        simp [aset, h1]]
      by_cases h2 : k1 = key
      · have h3 : ¬key = k := fun h => h1 (h2.trans h)
        simp [alookup, h2, h3]
      · simp [alookup, h1, h2, ih]

/-- One step of the `updateMarkerColors` fold never creates an entry. -/
theorem umcStep_none (ms : List (String × String)) (p : POI) (key : String)
    (h : alookup ms key = none) :
    alookup (umcStep ms p) key = none := by
  unfold umcStep
  cases hm : alookup ms p.id with
  | none => exact h
  | some c =>
    by_cases hv : p.visited
    · rw [if_pos hv, alookup_aerase]
      by_cases hk : key = p.id
      · simp [hk]
      · simp [hk, h]
    · rw [if_neg hv, alookup_aset]
      by_cases hk : key = p.id
      · rw [hk] at h; rw [h] at hm; exact Option.noConfusion hm
      · simp [hk, h]

theorem updateMarkerColors_none (places : List POI)
    (ms : List (String × String)) (key : String)
    (h : alookup ms key = none) :
    alookup (updateMarkerColors places ms) key = none := by
  induction places generalizing ms with
  | nil => exact h
  | cons p ps ih =>
    simp only [updateMarkerColors, List.foldl_cons] at ih ⊢
    exact ih _ (umcStep_none ms p key h)

/-- One step of the `updateMarkerColors` fold leaves keys other than the
processed place's id untouched. -/
theorem umcStep_other (ms : List (String × String)) (p : POI) (key : String)
    (h : p.id ≠ key) :
    alookup (umcStep ms p) key = alookup ms key := by
  unfold umcStep
  cases hm : alookup ms p.id with
  | none => rfl
  | some c =>
    by_cases hv : p.visited
    · rw [if_pos hv, alookup_aerase, if_neg (fun hk : key = p.id => h hk.symm)]
    · rw [if_neg hv, alookup_aset, if_neg (fun hk : key = p.id => h hk.symm)]

/-- After the `updateMarkerColors` fold, a key whose (unique) place is
visited has no marker. -/
theorem umc_none_of_visited (places : List POI)
    (ms : List (String × String)) (key : String)
    (hmem : ∃ p ∈ places, p.id = key ∧ p.visited = true)
    (hall : ∀ p ∈ places, p.id = key → p.visited = true) :
    alookup (updateMarkerColors places ms) key = none := by
  induction places generalizing ms with
  | nil => obtain ⟨p, hp, _⟩ := hmem; exact absurd hp (List.not_mem_nil p)
  | cons q ps ih =>
    simp only [updateMarkerColors, List.foldl_cons] at ih ⊢
    by_cases hq : q.id = key
    · have hqv : q.visited = true := hall q (List.mem_cons_self q ps) hq
      have hstep : alookup (umcStep ms q) key = none := by
        unfold umcStep
        cases hm : alookup ms q.id with
        | none => rw [← hq]; exact hm
        | some c =>
          rw [if_pos hqv, alookup_aerase, if_pos hq.symm]
      exact updateMarkerColors_none ps _ key hstep
    · rw [show List.foldl umcStep (umcStep ms q) ps
          = updateMarkerColors ps (umcStep ms q) from rfl,
        show alookup (updateMarkerColors ps (umcStep ms q)) key
          = alookup (updateMarkerColors ps (umcStep ms q)) key from rfl]
      have hrw := umcStep_other ms q key hq
      rcases hmem with ⟨p, hp, hpid, hpv⟩
      rcases List.mem_cons.mp hp with h | h
      · exact absurd (h ▸ hpid) hq
      · exact ih (umcStep ms q) ⟨p, h, hpid, hpv⟩
          (fun r hr hrid => hall r (List.mem_cons_of_mem q hr) hrid)

/-- Two members of a list with `Nodup` ids sharing an id are equal. -/
theorem nodup_id_unique {l : List POI} (hnd : (l.map POI.id).Nodup)
    {p q : POI} (hp : p ∈ l) (hq : q ∈ l) (h : p.id = q.id) : p = q := by
  induction l with
  | nil => exact absurd hp (List.not_mem_nil p)
  | cons a t ih =>
    simp only [List.map_cons, List.nodup_cons] at hnd
    rcases List.mem_cons.mp hp with hp1 | hp1 <;>
      rcases List.mem_cons.mp hq with hq1 | hq1
    · exact hp1.trans hq1.symm
    · subst hp1
      exact absurd (h ▸ List.mem_map_of_mem POI.id hq1) hnd.1
    · subst hq1
      exact absurd (h ▸ List.mem_map_of_mem POI.id hp1) hnd.1
    · exact ih hnd.2 hp1 hq1

theorem movePlaces_eq_map (l : List POI) (id : String) (d : Nat)
    (hnd : (l.map POI.id).Nodup) :
    movePlaces id d l
      = l.map (fun q => if q.id = id then { q with day := d } else q) := by
  induction l with
  | nil => rfl
  | cons a t ih =>
    simp only [List.map_cons, List.nodup_cons] at hnd
    by_cases ha : a.id = id
    · rw [show movePlaces id d (a :: t) = { a with day := d } :: t by
        simp [movePlaces, ha]]
      rw [List.map_cons, if_pos ha]
      have hfix : ∀ x ∈ t,
          (if x.id = id then ({ x with day := d } : POI) else x)
            = (fun q => q) x := by
        intro x hx
        have hxne : x.id ≠ id := by
          intro hxid
          exact hnd.1 (by
            rw [show a.id = x.id from ha.trans hxid.symm]
            exact List.mem_map_of_mem POI.id hx)
        simp [hxne]
      rw [List.map_congr_left hfix]
      simp
    · rw [show movePlaces id d (a :: t) = a :: movePlaces id d t by
        simp [movePlaces, ha]]
      rw [List.map_cons, if_neg ha, ih hnd.2]

theorem togglePlaces_twice (id : String) (l : List POI) :
    togglePlaces id (togglePlaces id l) = l := by
  induction l with
  | nil => rfl
  | cons a t ih =>
    by_cases ha : a.id = id
    · rw [show togglePlaces id (a :: t)
          = { a with visited := !a.visited } :: t by simp [togglePlaces, ha]]
      rw [show togglePlaces id ({ a with visited := !a.visited } :: t)
          = { a with visited := !!a.visited } :: t by simp [togglePlaces, ha]]
      cases a
      simp
    · simp [togglePlaces, ha, ih]

theorem find?_togglePlaces (id : String) (l : List POI) (p : POI)
    (hf : l.find? (fun q => q.id = id) = some p) :
    (togglePlaces id l).find? (fun q => q.id = id)
      = some { p with visited := !p.visited } := by
  induction l with
  | nil => exact Option.noConfusion hf
  | cons a t ih =>
    by_cases ha : a.id = id
    · rw [List.find?_cons_of_pos _ (by simp [ha])] at hf
      rw [show togglePlaces id (a :: t)
          = { a with visited := !a.visited } :: t by simp [togglePlaces, ha]]
      rw [List.find?_cons_of_pos _ (by simp [ha])]
      rw [← Option.some_inj.mp hf]
    · rw [List.find?_cons_of_neg _ (by simp [ha])] at hf
      rw [show togglePlaces id (a :: t) = a :: togglePlaces id t by
        simp [togglePlaces, ha]]
      rw [List.find?_cons_of_neg _ (by simp [ha])]
      exact ih hf

theorem togglePlaces_map_id (id : String) (l : List POI) :
    (togglePlaces id l).map POI.id = l.map POI.id := by
  induction l with
  | nil => rfl
  | cons a t ih =>
    by_cases ha : a.id = id
    · rw [show togglePlaces id (a :: t)
          = { a with visited := !a.visited } :: t by simp [togglePlaces, ha]]
      simp
    · simp [togglePlaces, ha, ih]

/-! ## Claim theorems -/

/-- C9: if zero candidates survive the name filter, the builder returns an
empty POI list rather than failing: the bucket-size expression is never
used as a divisor because the selected list is empty, so no error or
out-of-range day is produced. -/
theorem buildPlaces_empty_on_no_candidates
    (hav : Int → Int → Int → Int → Int) (lat lon : Int) (days : Nat)
    (elements : List OverElem) (h : elements.filter keepElem = []) :
    buildPlaces hav lat lon days elements = [] := by
  simp [buildPlaces, h]

theorem buildPlaces_empty_on_no_candidates_witness :
    ([({ id := 1, lat := 0, lon := 0, tags := none } : OverElem)].filter
        keepElem = []) ∧
    buildPlaces (fun _ _ _ _ => 0) 0 0 2
      [({ id := 1, lat := 0, lon := 0, tags := none } : OverElem)] = [] :=
  ⟨by decide,
   buildPlaces_empty_on_no_candidates (fun _ _ _ _ => 0) 0 0 2
     [{ id := 1, lat := 0, lon := 0, tags := none }] (by decide)⟩

/-- C10: `updateMarkerColors` is monotone decreasing on the marker set:
every id holding a marker afterwards held one before (markers of visited
POIs are removed, the rest recoloured, none created), so a POI toggled
back to non-visited has no marker until `createMarkers` rebuilds. -/
theorem updateMarkerColors_marker_subset (places : List POI)
    (markers : List (String × String)) (id : String)
    (h : (alookup (updateMarkerColors places markers) id).isSome = true) :
    (alookup markers id).isSome = true := by
  cases hm : alookup markers id with
  | some c => rfl
  | none =>
    rw [updateMarkerColors_none places markers id hm] at h
    exact Bool.noConfusion h

theorem updateMarkerColors_marker_subset_witness :
    ((alookup
        (updateMarkerColors
          [{ id := "1", name := "a", lat := 0, lon := 0, tags := [],
             day := 0, visited := false, descriptionLoaded := false,
             description := "" }]
          [("1", "#e74c3c")]) "1").isSome = true) ∧
    ((alookup [("1", "#e74c3c")] "1").isSome = true) :=
  ⟨by decide,
   updateMarkerColors_marker_subset
     [{ id := "1", name := "a", lat := 0, lon := 0, tags := [],
        day := 0, visited := false, descriptionLoaded := false,
        description := "" }]
     [("1", "#e74c3c")] "1" (by decide)⟩

/-- C3: day reordering remaps every POI's day through the given
permutation in one atomic pass (`newDay = mapping[oldDay]`, no POI left
unmapped), and applying a permutation followed by its inverse restores
every POI's original day assignment. -/
theorem reorderDays_perm_inverse_roundtrip (σ τ : Nat → Nat) (D : Nat)
    (places : List POI) (hinv : ∀ d, d < D → τ (σ d) = d)
    (hday : ∀ p ∈ places, p.day < D) :
    (reorderDays σ places).length = places.length ∧
    (∀ j (hj : j < places.length) (hj' : j < (reorderDays σ places).length),
       ((reorderDays σ places).get ⟨j, hj'⟩).day
         = σ ((places.get ⟨j, hj⟩).day)) ∧
    reorderDays τ (reorderDays σ places) = places := by
  refine ⟨by simp [reorderDays], ?_, ?_⟩
  · intro j hj hj'
    simp [reorderDays]
  · simp only [reorderDays, List.map_map]
    have hcongr : ∀ p ∈ places,
        ((fun q => { q with day := τ q.day }) ∘
          fun q : POI => { q with day := σ q.day }) p = id p := by
      intro p hp
      have hd := hday p hp
      cases p
      simp only [Function.comp_apply, id_eq]
      rw [hinv _ hd]
    rw [List.map_congr_left hcongr, List.map_id]

theorem reorderDays_perm_inverse_roundtrip_witness :
    ((reorderDays (fun d => (d + 1) % 2)
        [{ id := "1", name := "a", lat := 0, lon := 0, tags := [],
           day := 0, visited := false, descriptionLoaded := false,
           description := "" }]).length = 1) ∧
    reorderDays (fun d => (d + 1) % 2)
      (reorderDays (fun d => (d + 1) % 2)
        [{ id := "1", name := "a", lat := 0, lon := 0, tags := [],
           day := 0, visited := false, descriptionLoaded := false,
           description := "" }])
      = [{ id := "1", name := "a", lat := 0, lon := 0, tags := [],
           day := 0, visited := false, descriptionLoaded := false,
           description := "" }] := by
  have h := reorderDays_perm_inverse_roundtrip (fun d => (d + 1) % 2)
    (fun d => (d + 1) % 2) 2
    [{ id := "1", name := "a", lat := 0, lon := 0, tags := [],
       day := 0, visited := false, descriptionLoaded := false,
       description := "" }]
    (by decide) (by decide)
  exact ⟨h.1, h.2.2⟩

/-- C7: for an id not present in the trip, both the POI-move handler and
`toggleVisited` are silent no-ops: they return without error and leave
the trip (every POI's fields and ordering) and the markers unchanged. -/
theorem unknown_id_noop (st : AppState) (id : String) (d : Nat)
    (h : ∀ p ∈ st.places, p.id ≠ id) :
    toggleVisited id st = st ∧ moveHandler id d st = st := by
  have hf : st.places.find? (fun p => p.id = id) = none :=
    List.find?_eq_none.mpr (fun x hx => by simp [h x hx])
  constructor
  · simp [toggleVisited, hf]
  · simp [moveHandler, hf]

theorem unknown_id_noop_witness :
    toggleVisited "2"
      ({ places := [{ id := "1", name := "a", lat := 0, lon := 0,
                      tags := [], day := 0, visited := false,
                      descriptionLoaded := false, description := "" }],
         markers := [("1", "#e74c3c")] } : AppState)
      = { places := [{ id := "1", name := "a", lat := 0, lon := 0,
                       tags := [], day := 0, visited := false,
                       descriptionLoaded := false, description := "" }],
          markers := [("1", "#e74c3c")] } ∧
    moveHandler "2" 1
      ({ places := [{ id := "1", name := "a", lat := 0, lon := 0,
                      tags := [], day := 0, visited := false,
                      descriptionLoaded := false, description := "" }],
         markers := [("1", "#e74c3c")] } : AppState)
      = { places := [{ id := "1", name := "a", lat := 0, lon := 0,
                       tags := [], day := 0, visited := false,
                       descriptionLoaded := false, description := "" }],
          markers := [("1", "#e74c3c")] } :=
  unknown_id_noop
    { places := [{ id := "1", name := "a", lat := 0, lon := 0, tags := [],
                   day := 0, visited := false, descriptionLoaded := false,
                   description := "" }],
      markers := [("1", "#e74c3c")] } "2" 1 (by decide)

/-- C5: the POI-move handler changes only the moved POI: with unique ids,
after moving the POI whose id is `id` to day `d`, that POI's `day` equals
`d` with all its other fields unchanged, and every POI at another
position is entirely unchanged (same position, same fields). -/
theorem moveHandler_frame (st : AppState) (id : String) (d : Nat) (p : POI)
    (hnd : (st.places.map POI.id).Nodup) (hmem : p ∈ st.places)
    (hid : p.id = id) :
    ((moveHandler id d st).places.length = st.places.length) ∧
    (({ p with day := d } : POI) ∈ (moveHandler id d st).places) ∧
    (∀ q ∈ (moveHandler id d st).places, q.id = id →
       q = { p with day := d }) ∧
    (∀ j (hj : j < st.places.length)
        (hj' : j < (moveHandler id d st).places.length),
       (st.places.get ⟨j, hj⟩).id ≠ id →
       (moveHandler id d st).places.get ⟨j, hj'⟩ = st.places.get ⟨j, hj⟩) := by
  have hfind : (st.places.find? (fun q => q.id = id)).isSome :=
    List.find?_isSome.mpr ⟨p, hmem, by simp [hid]⟩
  obtain ⟨x, hx⟩ := Option.isSome_iff_exists.mp hfind
  have hplaces : (moveHandler id d st).places = movePlaces id d st.places := by
    simp [moveHandler, hx]
  rw [hplaces, movePlaces_eq_map _ _ _ hnd]
  refine ⟨by simp, ?_, ?_, ?_⟩
  · have hm := List.mem_map_of_mem
      (fun q => if q.id = id then ({ q with day := d } : POI) else q) hmem
    simpa [hid] using hm
  · intro q hq hqid
    obtain ⟨y, hymem, hyeq⟩ := List.mem_map.mp hq
    by_cases hyid : y.id = id
    · have hyp : y = p := nodup_id_unique hnd hymem hmem (hyid.trans hid.symm)
      rw [← hyeq, if_pos hyid, hyp]
    · rw [if_neg hyid] at hyeq
      exact absurd (hyeq ▸ hqid) hyid
  · intro j hj hj' hne
    simp only [List.get_eq_getElem] at hne ⊢
    simp only [List.getElem_map]
    rw [if_neg hne]

theorem moveHandler_frame_witness :
    ((moveHandler "1" 1
        ({ places :=
             [{ id := "1", name := "a", lat := 0, lon := 0, tags := [],
                day := 0, visited := false, descriptionLoaded := false,
                description := "" },
              { id := "2", name := "b", lat := 1, lon := 1, tags := [],
                day := 0, visited := false, descriptionLoaded := false,
                description := "" }],
           markers := [] } : AppState)).places.length = 2) ∧
    (({ id := "1", name := "a", lat := 0, lon := 0, tags := [], day := 1,
        visited := false, descriptionLoaded := false,
        description := "" } : POI) ∈
      (moveHandler "1" 1
        ({ places :=
             [{ id := "1", name := "a", lat := 0, lon := 0, tags := [],
                day := 0, visited := false, descriptionLoaded := false,
                description := "" },
              { id := "2", name := "b", lat := 1, lon := 1, tags := [],
                day := 0, visited := false, descriptionLoaded := false,
                description := "" }],
           markers := [] } : AppState)).places) := by
  have h := moveHandler_frame
    ({ places :=
         [{ id := "1", name := "a", lat := 0, lon := 0, tags := [],
            day := 0, visited := false, descriptionLoaded := false,
            description := "" },
          { id := "2", name := "b", lat := 1, lon := 1, tags := [],
            day := 0, visited := false, descriptionLoaded := false,
            description := "" }],
       markers := [] } : AppState) "1" 1
    { id := "1", name := "a", lat := 0, lon := 0, tags := [], day := 0,
      visited := false, descriptionLoaded := false, description := "" }
    (by decide) (by decide) (by decide)
  exact ⟨h.1, h.2.1⟩

/-- C4 counterexample: a non-visited POI with a marker; toggling visited
twice restores `visited = false` but the marker removed by the first
toggle is NOT present after the second — refuting the claim that marker
presence is restored. -/
theorem toggleVisited_twice_marker_counterexample :
    ((toggleVisited "1" (toggleVisited "1"
        ({ places :=
             [{ id := "1", name := "a", lat := 0, lon := 0, tags := [],
                day := 0, visited := false, descriptionLoaded := false,
                description := "" }],
           markers := [("1", "#e74c3c")] } : AppState))).places
      = [{ id := "1", name := "a", lat := 0, lon := 0, tags := [],
           day := 0, visited := false, descriptionLoaded := false,
           description := "" }]) ∧
    (alookup [("1", "#e74c3c")] "1" = some "#e74c3c") ∧
    (alookup (toggleVisited "1" (toggleVisited "1"
        ({ places :=
             [{ id := "1", name := "a", lat := 0, lon := 0, tags := [],
                day := 0, visited := false, descriptionLoaded := false,
                description := "" }],
           markers := [("1", "#e74c3c")] } : AppState))).markers "1"
      = none) := by
  refine ⟨?_, rfl, ?_⟩ <;> rfl

/-- C4 (amended): toggling visited twice on an id present in the trip
restores the places list exactly (hence the POI's original `visited`
value), but the POI's map marker is absent afterwards: a non-visited
POI's marker removed by the first toggle is not recreated by the second
(only `createMarkers` rebuilds markers). -/
theorem toggleVisited_twice_amended (st : AppState) (id : String) (p : POI)
    (hnd : (st.places.map POI.id).Nodup)
    (hfind : st.places.find? (fun q => q.id = id) = some p) :
    (toggleVisited id (toggleVisited id st)).places = st.places ∧
    alookup (toggleVisited id (toggleVisited id st)).markers id = none := by
  have hpid : p.id = id := by
    have := List.find?_some hfind
    simpa using this
  have hpmem : p ∈ st.places := List.mem_of_find?_eq_some hfind
  have hfind1 : (togglePlaces id st.places).find? (fun q => q.id = id)
      = some { p with visited := !p.visited } := find?_togglePlaces id _ p hfind
  have hst1 : toggleVisited id st
      = { places := togglePlaces id st.places,
          markers := updateMarkerColors (togglePlaces id st.places)
            st.markers } := by
    simp [toggleVisited, hfind]
  have hst2 : toggleVisited id (toggleVisited id st)
      = { places := togglePlaces id (togglePlaces id st.places),
          markers := updateMarkerColors
            (togglePlaces id (togglePlaces id st.places))
            (updateMarkerColors (togglePlaces id st.places) st.markers) } := by
    rw [hst1]
    simp [toggleVisited, hfind1]
  rw [hst2, togglePlaces_twice]
  refine ⟨rfl, ?_⟩
  by_cases hv : p.visited
  · -- original POI visited: the second pass erases its (possibly
    -- recoloured) marker
    exact umc_none_of_visited st.places _ id ⟨p, hpmem, hpid, hv⟩
      (fun q hq hqid =>
        (nodup_id_unique hnd hq hpmem (hqid.trans hpid.symm)) ▸ hv)
  · -- original POI not visited: the first pass erases the marker and no
    -- later pass recreates it
    have hv1 : ({ p with visited := !p.visited } : POI).visited = true := by
      simp [hv]
    have hmem1 : ({ p with visited := !p.visited } : POI)
        ∈ togglePlaces id st.places := List.mem_of_find?_eq_some hfind1
    have hnd1 : ((togglePlaces id st.places).map POI.id).Nodup := by
      rw [togglePlaces_map_id]; exact hnd
    have h1 : alookup
        (updateMarkerColors (togglePlaces id st.places) st.markers) id
        = none :=
      umc_none_of_visited _ _ id ⟨_, hmem1, by simpa using hpid, hv1⟩
        (fun q hq hqid => by
          have := nodup_id_unique hnd1 hq hmem1
            (by simpa using hqid.trans hpid.symm)
          rw [this]; exact hv1)
    exact updateMarkerColors_none _ _ id h1

theorem toggleVisited_twice_amended_witness :
    ((toggleVisited "1" (toggleVisited "1"
        ({ places :=
             [{ id := "1", name := "a", lat := 0, lon := 0, tags := [],
                day := 0, visited := true, descriptionLoaded := false,
                description := "" }],
           markers := [] } : AppState))).places
      = [{ id := "1", name := "a", lat := 0, lon := 0, tags := [],
           day := 0, visited := true, descriptionLoaded := false,
           description := "" }]) ∧
    (alookup (toggleVisited "1" (toggleVisited "1"
        ({ places :=
             [{ id := "1", name := "a", lat := 0, lon := 0, tags := [],
                day := 0, visited := true, descriptionLoaded := false,
                description := "" }],
           markers := [] } : AppState))).markers "1" = none) :=
  toggleVisited_twice_amended
    ({ places :=
         [{ id := "1", name := "a", lat := 0, lon := 0, tags := [],
            day := 0, visited := true, descriptionLoaded := false,
            description := "" }],
       markers := [] } : AppState) "1"
    { id := "1", name := "a", lat := 0, lon := 0, tags := [], day := 0,
      visited := true, descriptionLoaded := false, description := "" }
    (by decide) (by decide)

theorem sum_ite_range (c k D : Nat) :
    ((List.range D).map (fun d => if k = d then c else 0)).sum
      = if k < D then c else 0 := by
  induction D with
  | zero => simp
  | succ D ih =>
    rw [List.range_succ, List.map_append, List.sum_append, ih]
    simp only [List.map_cons, List.map_nil, List.sum_cons, List.sum_nil]
    by_cases h1 : k < D
    · have h2 : k ≠ D := Nat.ne_of_lt h1
      simp [h1, h2, Nat.lt_succ_of_lt h1]
    · by_cases h2 : k = D
      · simp [h1, h2]
      · have h3 : ¬k < D + 1 := by omega
        simp [h1, h2, h3]

theorem count_filter_neg (p : POI → Bool) (a : POI) (l : List POI)
    (h : p a = false) : List.count a (l.filter p) = 0 := by
  rw [List.count_eq_zero]
  intro hmem
  have hpa := (List.mem_filter.mp hmem).2
  rw [h] at hpa
  exact Bool.noConfusion hpa

/-- Concatenating the per-day buckets of a list whose days all lie below
`D` is a permutation of the list: no POI dropped, none duplicated. -/
theorem flatMap_filter_day_perm (l : List POI) (D : Nat)
    (h : ∀ p ∈ l, p.day < D) :
    ((List.range D).flatMap
        (fun d => l.filter (fun p => p.day = d))).Perm l := by
  rw [List.perm_iff_count]
  intro a
  rw [List.count_flatMap]
  by_cases hm : a ∈ l
  · have had : a.day < D := h a hm
    have hmap : (List.range D).map
          (List.count a ∘ fun d => l.filter (fun p => p.day = d))
        = (List.range D).map
          (fun d => if a.day = d then List.count a l else 0) := by
      apply List.map_congr_left
      intro d _
      simp only [Function.comp_apply]
      by_cases he : a.day = d
      · rw [if_pos he, List.count_filter (by simp [he])]
      · rw [if_neg he, count_filter_neg _ _ _ (by simp [he])]
    rw [hmap, sum_ite_range, if_pos had]
  · rw [List.count_eq_zero.mpr hm]
    have hmap : (List.range D).map
          (List.count a ∘ fun d => l.filter (fun p => p.day = d))
        = (List.range D).map (fun _ => 0) := by
      apply List.map_congr_left
      intro d _
      simp only [Function.comp_apply]
      rw [List.count_eq_zero]
      intro hmem
      exact hm (List.mem_filter.mp hmem).1
    rw [hmap]
    simp

/-- The day index `i / ⌈m / D⌉` of the i-th of `m` selected candidates is
always below `D`. -/
theorem div_ceil_lt (i m D : Nat) (hD : 0 < D) (him : i < m) :
    i / ((m + D - 1) / D) < D := by
  have hb : (m + D - 1) / D = (m - 1) / D + 1 := by
    have hm1 : m + D - 1 = (m - 1) + D := by omega
    rw [hm1, Nat.add_div_right _ hD]
  rw [hb, Nat.div_lt_iff_lt_mul (Nat.succ_pos _)]
  have h1 := Nat.div_add_mod (m - 1) D
  have h2 : (m - 1) % D < D := Nat.mod_lt _ hD
  show i < D * ((m - 1) / D + 1)
  rw [show D * ((m - 1) / D + 1) = D * ((m - 1) / D) + D from by ring]
  generalize ht : D * ((m - 1) / D) = t at h1 ⊢
  omega

/-- C1: for `days ≥ 1`, the builder produces exactly
`min(filteredCount, days*5)` POIs, assigns the i-th selected candidate
(in distance-sorted order) day `i / ⌈selectedCount / days⌉`, keeps every
day in `[0, days)`, and the per-day buckets partition the produced POI
list exactly (no POI dropped or duplicated). -/
theorem buildPlaces_count_day_partition
    (hav : Int → Int → Int → Int → Int) (lat lon : Int) (days : Nat)
    (elements : List OverElem) (hd : 1 ≤ days) :
    ((buildPlaces hav lat lon days elements).length
        = Nat.min (elements.filter keepElem).length (days * 5)) ∧
    (∀ i (hi : i < (buildPlaces hav lat lon days elements).length),
       ((buildPlaces hav lat lon days elements).get ⟨i, hi⟩).day
         = i / ((Nat.min (elements.filter keepElem).length (days * 5)
                  + days - 1) / days)) ∧
    (∀ p ∈ buildPlaces hav lat lon days elements, p.day < days) ∧
    ((List.range days).flatMap
        (fun d => (buildPlaces hav lat lon days elements).filter
          (fun p => p.day = d))).Perm
      (buildPlaces hav lat lon days elements) := by
  have hslen : ((elements.filter keepElem).mergeSort
      (fun a b =>
        decide (hav lat lon a.lat a.lon ≤ hav lat lon b.lat b.lon))).length
      = (elements.filter keepElem).length := List.length_mergeSort _
  have hlen : (buildPlaces hav lat lon days elements).length
      = Nat.min (elements.filter keepElem).length (days * 5) := by
    simp only [buildPlaces, List.length_mapIdx]
    rw [List.length_take_of_le (Nat.min_le_left _ _), hslen]
  have hget : ∀ i (hi : i < (buildPlaces hav lat lon days elements).length),
      ((buildPlaces hav lat lon days elements).get ⟨i, hi⟩).day
        = i / ((Nat.min (elements.filter keepElem).length (days * 5)
                 + days - 1) / days) := by
    intro i hi
    simp only [buildPlaces, List.get_eq_getElem, List.getElem_mapIdx,
      List.getElem_take, hslen]
  have hday : ∀ p ∈ buildPlaces hav lat lon days elements, p.day < days := by
    intro p hp
    obtain ⟨i, hi, hpi⟩ := List.mem_iff_getElem.mp hp
    have hgi := hget i hi
    rw [List.get_eq_getElem] at hgi
    rw [← hpi, hgi]
    apply div_ceil_lt _ _ _ hd
    rw [hlen] at hi
    exact hi
  exact ⟨hlen, hget, hday,
    flatMap_filter_day_perm (buildPlaces hav lat lon days elements) days hday⟩

theorem buildPlaces_count_day_partition_witness :
    ((buildPlaces (fun _ _ a _ => a) 0 0 2
        [({ id := 1, lat := 3, lon := 0, tags := some [("name", "c")] } :
            OverElem),
         { id := 2, lat := 1, lon := 0, tags := some [("name", "a")] },
         { id := 3, lat := 2, lon := 0, tags := some [("name", "b")] }]).length
      = Nat.min 3 (2 * 5)) ∧
    (∀ p ∈ buildPlaces (fun _ _ a _ => a) 0 0 2
        [({ id := 1, lat := 3, lon := 0, tags := some [("name", "c")] } :
            OverElem),
         { id := 2, lat := 1, lon := 0, tags := some [("name", "a")] },
         { id := 3, lat := 2, lon := 0, tags := some [("name", "b")] }],
       p.day < 2) := by
  have h := buildPlaces_count_day_partition (fun _ _ a _ => a) 0 0 2
    [({ id := 1, lat := 3, lon := 0, tags := some [("name", "c")] } :
        OverElem),
     { id := 2, lat := 1, lon := 0, tags := some [("name", "a")] },
     { id := 3, lat := 2, lon := 0, tags := some [("name", "b")] }]
    (by decide)
  exact ⟨by rw [h.1]; rfl, h.2.2.1⟩

/-- C6: the builder sorts surviving candidates ascending by distance from
the origin before selecting and partitioning — any produced POI preceding
another has distance ≤ the other's — and the sort is stable: two
candidates at equal distance stay in input order. -/
theorem buildPlaces_sorted_stable
    (hav : Int → Int → Int → Int → Int) (lat lon : Int) (days : Nat)
    (elements : List OverElem) :
    List.Pairwise
      (fun p q : POI => hav lat lon p.lat p.lon ≤ hav lat lon q.lat q.lon)
      (buildPlaces hav lat lon days elements) ∧
    (∀ a b : OverElem, [a, b].Sublist (elements.filter keepElem) →
       hav lat lon a.lat a.lon = hav lat lon b.lat b.lon →
       [a, b].Sublist ((elements.filter keepElem).mergeSort
         (fun a b =>
           decide (hav lat lon a.lat a.lon ≤ hav lat lon b.lat b.lon)))) := by
  have htrans : ∀ a b c : OverElem,
      (fun a b : OverElem =>
        decide (hav lat lon a.lat a.lon ≤ hav lat lon b.lat b.lon)) a b
        = true →
      (fun a b : OverElem =>
        decide (hav lat lon a.lat a.lon ≤ hav lat lon b.lat b.lon)) b c
        = true →
      (fun a b : OverElem =>
        decide (hav lat lon a.lat a.lon ≤ hav lat lon b.lat b.lon)) a c
        = true := by
    intro a b c hab hbc
    simp only [decide_eq_true_eq] at hab hbc ⊢
    omega
  have htotal : ∀ a b : OverElem,
      ((fun a b : OverElem =>
        decide (hav lat lon a.lat a.lon ≤ hav lat lon b.lat b.lon)) a b ||
       (fun a b : OverElem =>
        decide (hav lat lon a.lat a.lon ≤ hav lat lon b.lat b.lon)) b a)
        = true := by
    intro a b
    simp only [Bool.or_eq_true, decide_eq_true_eq]
    omega
  have hsorted := List.sorted_mergeSort htrans htotal
    (elements.filter keepElem)
  constructor
  · have hlen : (buildPlaces hav lat lon days elements).length ≤
        ((elements.filter keepElem).mergeSort
          (fun a b =>
            decide (hav lat lon a.lat a.lon ≤ hav lat lon b.lat b.lon))).length := by
      simp only [buildPlaces, List.length_mapIdx, List.length_take]
      exact inf_le_right
    rw [List.pairwise_iff_getElem]
    intro i j hi hj hij
    have hp := List.pairwise_iff_getElem.mp hsorted i j
      (lt_of_lt_of_le hi hlen) (lt_of_lt_of_le hj hlen) hij
    simp only [decide_eq_true_eq] at hp
    simp only [buildPlaces, List.getElem_mapIdx, List.getElem_take]
    exact hp
  · intro a b hsub heq
    exact List.mergeSort_stable_pair htrans htotal (by simp [heq.le]) hsub

theorem buildPlaces_sorted_stable_witness :
    List.Pairwise
      (fun p q : POI => (fun _ _ a _ => a : Int → Int → Int → Int → Int)
          0 0 p.lat p.lon
        ≤ (fun _ _ a _ => a : Int → Int → Int → Int → Int) 0 0 q.lat q.lon)
      (buildPlaces (fun _ _ a _ => a) 0 0 1
        [({ id := 9, lat := 2, lon := 0, tags := some [("name", "x")] } :
            OverElem),
         { id := 8, lat := 2, lon := 0, tags := some [("name", "y")] }]) ∧
    [({ id := 9, lat := 2, lon := 0, tags := some [("name", "x")] } :
        OverElem),
     { id := 8, lat := 2, lon := 0, tags := some [("name", "y")] }].Sublist
      (([({ id := 9, lat := 2, lon := 0, tags := some [("name", "x")] } :
            OverElem),
          { id := 8, lat := 2, lon := 0, tags := some [("name", "y")] }].filter
          keepElem).mergeSort
        (fun a b =>
          decide ((fun _ _ a _ => a : Int → Int → Int → Int → Int)
              0 0 a.lat a.lon
            ≤ (fun _ _ a _ => a : Int → Int → Int → Int → Int)
              0 0 b.lat b.lon))) := by
  have h := buildPlaces_sorted_stable (fun _ _ a _ => a) 0 0 1
    [({ id := 9, lat := 2, lon := 0, tags := some [("name", "x")] } :
        OverElem),
     { id := 8, lat := 2, lon := 0, tags := some [("name", "y")] }]
  exact ⟨h.1, h.2
    { id := 9, lat := 2, lon := 0, tags := some [("name", "x")] }
    { id := 8, lat := 2, lon := 0, tags := some [("name", "y")] }
    (by decide) (by decide)⟩

theorem mapM_decodeTag (ts : List (String × String)) :
    (ts.map (fun kv => (kv.1, JVal.jstr kv.2))).mapM decodeTag
      = some ts := by
  induction ts with
  | nil => rfl
  | cons kv ts ih =>
    rw [List.map_cons, List.mapM_cons,
      show decodeTag (kv.1, JVal.jstr kv.2) = some (kv.1, kv.2) from rfl,
      ih]
    rfl

theorem toNat'_natCast (n : Nat) : ((n : Int)).toNat' = some n := rfl

theorem decodePOI_encodePOI (p : POI) : decodePOI (encodePOI p) = some p := by
  obtain ⟨id, name, lat, lon, tags, day, visited, dl, descr⟩ := p
  simp only [encodePOI, decodePOI, mapM_decodeTag]
  rfl

theorem mapM_decodePOI (l : List POI) :
    (l.map encodePOI).mapM decodePOI = some l := by
  induction l with
  | nil => rfl
  | cons p ps ih =>
    rw [List.map_cons, List.mapM_cons, decodePOI_encodePOI, ih]
    rfl

/-- C2: saving a valid trip and loading it back under the same key yields
a trip equal by value to the original: `saveTrip` writes the full payload
(places, destination, day count, mode) under the current key and
`loadTrip` restores exactly those values. -/
theorem saveTrip_loadTrip_roundtrip (t : Trip) (k : String)
    (storage : List (String × StoredStr)) (st : RawTrip)
    (hmode : t.mode ≠ "") :
    decodeRawTrip (loadTrip (some k) (saveTrip (some k) t storage) st)
      = some t := by
  have hlk : alookup (saveTrip (some k) t storage) k
      = some (.good (encodeTrip t)) := by
    simp [saveTrip, alookup]
  simp [loadTrip, hlk, encodeTrip, jsGet, alookup, truthy, hmode,
    decodeRawTrip, mapM_decodePOI, toNat'_natCast]
  rw [show List.mapM.loop decodePOI (List.map encodePOI t.places) []
      = (List.map encodePOI t.places).mapM decodePOI from rfl,
    mapM_decodePOI]

theorem saveTrip_loadTrip_roundtrip_witness :
    decodeRawTrip
      (loadTrip (some "u_trip_Rome_2")
        (saveTrip (some "u_trip_Rome_2")
          { places :=
              [{ id := "1", name := "a", lat := 0, lon := 0,
                 tags := [("name", "a")], day := 0, visited := false,
                 descriptionLoaded := false, description := "" }],
            dest := "Rome", days := 2, mode := "driving" } [])
        { places := none, dest := none, days := none, mode := none })
      = some { places :=
                 [{ id := "1", name := "a", lat := 0, lon := 0,
                    tags := [("name", "a")], day := 0, visited := false,
                    descriptionLoaded := false, description := "" }],
               dest := "Rome", days := 2, mode := "driving" } :=
  saveTrip_loadTrip_roundtrip
    { places :=
        [{ id := "1", name := "a", lat := 0, lon := 0,
           tags := [("name", "a")], day := 0, visited := false,
           descriptionLoaded := false, description := "" }],
      dest := "Rome", days := 2, mode := "driving" } "u_trip_Rome_2" []
    { places := none, dest := none, days := none, mode := none }
    (by decide)

/-- C8 counterexample: a persisted string that parses as JSON but is not
a well-formed payload (`{"places": 7}`): the load overwrites the
in-memory places with the corrupt value `7` instead of leaving the state
as it would be for a missing key, refuting the claim that such a load
never replaces the in-memory trip state. -/
theorem loadTrip_corrupt_counterexample :
    ((loadTrip (some "k")
        [("k", StoredStr.good (.jobj [("places", .jnum 7)]))]
        { places := some (.jarr []), dest := some (.jstr "Rome"),
          days := some (.jnum 2), mode := some (.jstr "driving") }).places
      = some (.jnum 7)) ∧
    (loadTrip (some "k")
        [("k", StoredStr.good (.jobj [("places", .jnum 7)]))]
        { places := some (.jarr []), dest := some (.jstr "Rome"),
          days := some (.jnum 2), mode := some (.jstr "driving") }
      ≠ { places := some (.jarr []), dest := some (.jstr "Rome"),
          days := some (.jnum 2), mode := some (.jstr "driving") }) := by
  constructor
  · rfl
  · intro h
    have h2 := congrArg RawTrip.places h
    rw [show (loadTrip (some "k")
        [("k", StoredStr.good (.jobj [("places", .jnum 7)]))]
        { places := some (.jarr []), dest := some (.jstr "Rome"),
          days := some (.jnum 2), mode := some (.jstr "driving") }).places
        = some (.jnum 7) from rfl] at h2
    exact JVal.noConfusion (Option.some.inj h2)

/-- C8 (amended): when the persisted string is missing or `JSON.parse`
throws on it, `loadTrip` returns without raising and leaves the
in-memory trip variables unchanged (as if no trip exists); but a string
that parses to an ill-shaped payload is not protected — its fields are
assigned into the in-memory state (see the counterexample). -/
theorem loadTrip_missing_or_unparsable (k : String)
    (storage : List (String × StoredStr)) (st : RawTrip)
    (h : alookup storage k = none ∨ alookup storage k = some .bad) :
    loadTrip (some k) storage st = st := by
  rcases h with h | h <;> simp [loadTrip, h]

theorem loadTrip_missing_or_unparsable_witness :
    loadTrip (some "k") [("k", StoredStr.bad)]
      { places := some (.jarr []), dest := some (.jstr "Rome"),
        days := some (.jnum 2), mode := some (.jstr "driving") }
      = { places := some (.jarr []), dest := some (.jstr "Rome"),
          days := some (.jnum 2), mode := some (.jstr "driving") } :=
  loadTrip_missing_or_unparsable "k" [("k", StoredStr.bad)]
    { places := some (.jarr []), dest := some (.jstr "Rome"),
      days := some (.jnum 2), mode := some (.jstr "driving") }
    (Or.inr rfl)

end TravelApp
